import Mathlib

/-!
# Verification of the SearXNG Lemmy engine connector

A shallow embedding of `searx/engines/lemmy.py`: the request builder
(`request`, building `{base_url}api/v3/search?` followed by the
`urlencode`d parameters `q`, `page`, `type_`), the four JSON extraction
functions (`_get_communities`, `_get_users`, `_get_posts`,
`_get_comments`), and the dispatching `response` function.

Modelling choices:

* Python `dict`s are association lists with first-match lookup
  (`alookup`) and in-place item assignment (`setKey`).
* Parsed JSON is the inductive `Json`; a failed key access (Python
  `KeyError` / `TypeError`) is the `MalformedResponse` error of the
  spec's taxonomy, and the `ValueError` raised by `response` on an
  unsupported `lemmy_type` is `UnsupportedKind`.
* `_format_content` (markdown_it rendering plus
  `searx.utils.html_to_text`) is an external collaborator whose
  internals are out of scope; every function that calls it is
  parameterised by an arbitrary conversion `fmt : Json → Json`.
* Python strings on the wire are lists of bytes (`List Nat`, each
  `< 256`); `urlencode` is modelled byte for byte after
  `urllib.parse.urlencode` with its default `quote_plus` quoting.
-/

namespace Lemmy

/-- Association-list lookup (first match), modelling Python dict key access. -/
def alookup {α : Type} : List (String × α) → String → Option α
  | [], _ => none
  | (k, v) :: rest, key => if k = key then some v else alookup rest key

/-- Association-list update, modelling Python dict item assignment:
overwrite the first binding of the key, or append a fresh one. -/
def setKey {α : Type} : List (String × α) → String → α → List (String × α)
  | [], key, v => [(key, v)]
  | (k, w) :: rest, key, v =>
    if k = key then (key, v) :: rest else (k, w) :: setKey rest key v

/-- Parsed JSON values, as returned by `resp.json()`. -/
inductive Json where
  | null : Json
  | bool : Bool → Json
  | num : Int → Json
  | str : String → Json
  | arr : List Json → Json
  | obj : List (String × Json) → Json

/-- The spec's error taxonomy for this connector (§7): an unsupported
`result_kind` (the code's `ValueError`) and a failed JSON lookup (the
code's `KeyError`/`TypeError`). -/
inductive Err where
  | UnsupportedKind : Err
  | MalformedResponse : Err
deriving DecidableEq

/-- One normalized result item handed back to the host. -/
structure ResultItem where
  url : Json
  title : Json
  content : Json

/-- Field access on a JSON object, `none` when the key is absent or the
value is not an object. -/
def Json.get? : Json → String → Option Json
  | .obj fs, k => alookup fs k
  | _, _ => none

/-- View a JSON value as an object; anything else is a malformed
response (Python `TypeError` on key access). -/
def Json.asObj : Json → Except Err (List (String × Json))
  | .obj fs => .ok fs
  | _ => .error .MalformedResponse

/-- View a JSON value as an array; anything else is a malformed
response (Python `TypeError` on iteration). -/
def Json.asArr : Json → Except Err (List Json)
  | .arr xs => .ok xs
  | _ => .error .MalformedResponse

/-- `fs[k]`: required lookup, `KeyError` becomes `MalformedResponse`. -/
def objGet (fs : List (String × Json)) (k : String) : Except Err Json :=
  match alookup fs k with
  | some v => .ok v
  | none => .error .MalformedResponse

/-- `fs.get(k, d)`: optional lookup with a default. -/
def objGetD (fs : List (String × Json)) (k : String) (d : Json) : Json :=
  (alookup fs k).getD d

/-- The loop body of `_get_communities`: one element of the
`communities` array mapped to a result item. -/
def extractCommunity (fmt : Json → Json) (r : Json) : Except Err ResultItem := do
  let rf ← r.asObj
  let c ← objGet rf "community"
  let cf ← c.asObj
  let u ← objGet cf "actor_id"
  let t ← objGet cf "title"
  return { url := u, title := t, content := fmt (objGetD cf "description" (.str "")) }

/-- The loop body of `_get_users`. -/
def extractUser (fmt : Json → Json) (r : Json) : Except Err ResultItem := do
  let rf ← r.asObj
  let p ← objGet rf "person"
  let pf ← p.asObj
  let u ← objGet pf "actor_id"
  let t ← objGet pf "name"
  return { url := u, title := t, content := fmt (objGetD pf "bio" (.str "")) }

/-- The loop body of `_get_posts`. -/
def extractPost (fmt : Json → Json) (r : Json) : Except Err ResultItem := do
  let rf ← r.asObj
  let p ← objGet rf "post"
  let pf ← p.asObj
  let u ← objGet pf "ap_id"
  let t ← objGet pf "name"
  return { url := u, title := t, content := fmt (objGetD pf "body" (.str "")) }

/-- The loop body of `_get_comments`: `url` and `title` come from the
`comment` and sibling `post` sub-objects, `content` is a *required*
field of the comment (plain `[]` access in the source, no default). -/
def extractComment (fmt : Json → Json) (r : Json) : Except Err ResultItem := do
  let rf ← r.asObj
  let c ← objGet rf "comment"
  let cf ← c.asObj
  let u ← objGet cf "ap_id"
  let p ← objGet rf "post"
  let pf ← p.asObj
  let t ← objGet pf "name"
  let body ← objGet cf "content"
  return { url := u, title := t, content := fmt body }

/-- The `results.append` loop: one output item per array element, in
order; a raised exception aborts the whole call. -/
def mapExtract (f : Json → Except Err ResultItem) : List Json → Except Err (List ResultItem)
  | [] => .ok []
  | x :: xs =>
    match f x with
    | .error e => .error e
    | .ok r =>
      match mapExtract f xs with
      | .error e => .error e
      | .ok rs => .ok (r :: rs)

/-- `_get_communities(json)`. -/
def _get_communities (fmt : Json → Json) (j : Json) : Except Err (List ResultItem) := do
  let jf ← j.asObj
  let v ← objGet jf "communities"
  let xs ← v.asArr
  mapExtract (extractCommunity fmt) xs

/-- `_get_users(json)`. -/
def _get_users (fmt : Json → Json) (j : Json) : Except Err (List ResultItem) := do
  let jf ← j.asObj
  let v ← objGet jf "users"
  let xs ← v.asArr
  mapExtract (extractUser fmt) xs

/-- `_get_posts(json)`. -/
def _get_posts (fmt : Json → Json) (j : Json) : Except Err (List ResultItem) := do
  let jf ← j.asObj
  let v ← objGet jf "posts"
  let xs ← v.asArr
  mapExtract (extractPost fmt) xs

/-- `_get_comments(json)`. -/
def _get_comments (fmt : Json → Json) (j : Json) : Except Err (List ResultItem) := do
  let jf ← j.asObj
  let v ← objGet jf "comments"
  let xs ← v.asArr
  mapExtract (extractComment fmt) xs

/-- The module-level configuration: `base_url` (a byte string) and
`lemmy_type`, fixed per configured engine instance. -/
structure EngineConfig where
  base_url : List Nat
  lemmy_type : String

/-- `response(resp)`: dispatch on the configured `lemmy_type`; any
other value raises `ValueError` (`UnsupportedKind`). -/
def response (fmt : Json → Json) (cfg : EngineConfig) (j : Json) : Except Err (List ResultItem) :=
  if cfg.lemmy_type = "Communities" then _get_communities fmt j
  else if cfg.lemmy_type = "Users" then _get_users fmt j
  else if cfg.lemmy_type = "Posts" then _get_posts fmt j
  else if cfg.lemmy_type = "Comments" then _get_comments fmt j
  else .error .UnsupportedKind

/-! ## Request building: `urlencode` and `request` -/

/-- The code points of a Lean string literal, as bytes (used only for
ASCII literals, where code point and UTF-8 byte coincide). -/
def strBytes (s : String) : List Nat := s.toList.map Char.toNat

/-- A byte that `urllib.parse.quote` leaves unescaped with `safe=''`:
ASCII letters, digits and `_ . - ~`. -/
def safeByte (b : Nat) : Bool :=
  (65 ≤ b && b ≤ 90) || (97 ≤ b && b ≤ 122) || (48 ≤ b && b ≤ 57) ||
    b == 95 || b == 46 || b == 45 || b == 126

/-- Upper-case hexadecimal digit character (as a byte) of `n < 16`. -/
def hexDigit (n : Nat) : Nat :=
  if n < 10 then 48 + n else 55 + n

/-- `quote_plus` on a single byte: space becomes `+`, safe bytes pass
through, everything else is percent-escaped `%XX`. -/
def quoteByte (b : Nat) : List Nat :=
  if b = 32 then [43]
  else if safeByte b then [b]
  else [37, hexDigit (b / 16), hexDigit (b % 16)]

/-- `urllib.parse.quote_plus` over a byte string. -/
def quotePlus (s : List Nat) : List Nat :=
  (s.map quoteByte).flatten

/-- `urllib.parse.urlencode`: quote each key and value, join each pair
with `=` (byte 61) and the pairs with `&` (byte 38). -/
def urlencode : List (List Nat × List Nat) → List Nat
  | [] => []
  | [kv] => quotePlus kv.1 ++ 61 :: quotePlus kv.2
  | kv :: kv2 :: rest =>
    quotePlus kv.1 ++ 61 :: quotePlus kv.2 ++ 38 :: urlencode (kv2 :: rest)

/-- Decimal digit characters of `n`, most significant first, with
enough fuel (Python `str` of a non-negative int). -/
def natToDigitsAux : Nat → Nat → List Nat
  | 0, _ => []
  | fuel + 1, n =>
    if n < 10 then [48 + n] else natToDigitsAux fuel (n / 10) ++ [48 + n % 10]

/-- Decimal representation of `n` as a byte string, `str(n)`. -/
def natToDigits (n : Nat) : List Nat := natToDigitsAux (n + 1) n

/-- Values a caller-supplied `params` dict may hold. -/
inductive PVal where
  | nat : Nat → PVal
  | bytes : List Nat → PVal
  | bool : Bool → PVal
deriving DecidableEq

/-- The `params` dict handed to `request` by the host. -/
abbrev Params : Type := List (String × PVal)

/-- The search URL `request` stores into `params['url']`. -/
def requestUrl (cfg : EngineConfig) (query : List Nat) (pageno : Nat) : List Nat :=
  cfg.base_url ++ strBytes "api/v3/search?" ++
    urlencode [(strBytes "q", query),
               (strBytes "page", natToDigits pageno),
               (strBytes "type_", strBytes cfg.lemmy_type)]

/-- `request(query, params)`: reads `params['pageno']` (a `KeyError`
when absent is `none`), builds the search URL from the `urlencode`d
arguments `q`, `page`, `type_`, stores it at `params['url']` and
returns the same dict. -/
def request (cfg : EngineConfig) (query : List Nat) (params : Params) : Option Params :=
  match alookup params "pageno" with
  | some (PVal.nat n) => some (setKey params "url" (PVal.bytes (requestUrl cfg query n)))
  | _ => none

/-! ## Decoding URL query strings

These definitions are the spec side of the round-trip claim: a standard
decoder for `application/x-www-form-urlencoded` strings, used to state
that the encoded parameters decode back to exactly the inputs. -/

/-- Value of a hexadecimal digit character (byte), upper or lower case. -/
def hexVal (c : Nat) : Option Nat :=
  if 48 ≤ c ∧ c ≤ 57 then some (c - 48)
  else if 65 ≤ c ∧ c ≤ 70 then some (c - 55)
  else if 97 ≤ c ∧ c ≤ 102 then some (c - 87)
  else none

/-- Replace every `+` by a space (the first phase of `unquote_plus`). -/
def plusToSpace (s : List Nat) : List Nat :=
  s.map (fun b => if b = 43 then 32 else b)

/-- Percent-decoding: `%XX` becomes a byte, anything else passes
through (a stray or malformed `%` is kept literally). -/
def percentDecode : List Nat → List Nat
  | [] => []
  | [b] => [b]
  | [b, h] => if b = 37 then [37, h] else b :: percentDecode [h]
  | b :: h :: l :: rest =>
    if b = 37 then
      match hexVal h, hexVal l with
      | some x, some y => (16 * x + y) :: percentDecode rest
      | _, _ => 37 :: percentDecode (h :: l :: rest)
    else b :: percentDecode (h :: l :: rest)

/-- Inverse of `quote_plus`: replace `+` by space, then percent-decode. -/
def unquotePlus (s : List Nat) : List Nat :=
  percentDecode (plusToSpace s)

/-- Split a byte string at every occurrence of `sep`. -/
def splitOnByte (sep : Nat) : List Nat → List (List Nat)
  | [] => [[]]
  | b :: rest =>
    match splitOnByte sep rest with
    | [] => [[b]]
    | g :: gs => if b = sep then [] :: g :: gs else (b :: g) :: gs

/-- Split a field at the first occurrence of `sep` (the first `=`). -/
def splitFirst (sep : Nat) : List Nat → List Nat × List Nat
  | [] => ([], [])
  | b :: rest =>
    if b = sep then ([], rest)
    else
      let p := splitFirst sep rest
      (b :: p.1, p.2)

/-- Decode a query string back into its key/value pairs. -/
def decodeQuery (s : List Nat) : List (List Nat × List Nat) :=
  (splitOnByte 38 s).map (fun f => ((unquotePlus (splitFirst 61 f).1), unquotePlus (splitFirst 61 f).2))

/-- Numeric value of a decimal digit string (inverse of `natToDigits`). -/
def digitsVal (s : List Nat) : Nat :=
  s.foldl (fun acc d => 10 * acc + (d - 48)) 0

/-! ## Spec-side descriptions of the dispatch table

The following definitions transcribe the spec's §4.1 dispatch table
(source array, url / title / content field paths, content default);
the theorems below compare the code's extraction functions to them. -/

/-- Two-step field path `x.k1.k2` on a JSON value. -/
def jpath2 (x : Json) (k1 k2 : String) : Option Json :=
  (x.get? k1).bind (fun y => Json.get? y k2)

/-- A `communities` element carrying the fields the dispatch table
reads: a `community` sub-object with `actor_id` and `title`. -/
def wfCommunity (x : Json) : Bool :=
  match x with
  | .obj rf =>
    match alookup rf "community" with
    | some (.obj cf) => (alookup cf "actor_id").isSome && (alookup cf "title").isSome
    | _ => false
  | _ => false

/-- A `users` element carrying `person.actor_id` and `person.name`. -/
def wfUser (x : Json) : Bool :=
  match x with
  | .obj rf =>
    match alookup rf "person" with
    | some (.obj pf) => (alookup pf "actor_id").isSome && (alookup pf "name").isSome
    | _ => false
  | _ => false

/-- A `posts` element carrying `post.ap_id` and `post.name`. -/
def wfPost (x : Json) : Bool :=
  match x with
  | .obj rf =>
    match alookup rf "post" with
    | some (.obj pf) => (alookup pf "ap_id").isSome && (alookup pf "name").isSome
    | _ => false
  | _ => false

/-- A `comments` element carrying `comment.ap_id`, the *required*
`comment.content`, and the sibling `post.name`. -/
def wfComment (x : Json) : Bool :=
  match x with
  | .obj rf =>
    match alookup rf "comment", alookup rf "post" with
    | some (.obj cf), some (.obj pf) =>
      (alookup cf "ap_id").isSome && (alookup cf "content").isSome &&
        (alookup pf "name").isSome
    | _, _ => false
  | _ => false

/-- The dispatch-table row for `Communities`:
url `community.actor_id`, title `community.title`,
content `community.description` defaulting to empty. -/
def specItemCommunities (fmt : Json → Json) (x : Json) : ResultItem :=
  { url := (jpath2 x "community" "actor_id").getD .null,
    title := (jpath2 x "community" "title").getD .null,
    content := fmt ((jpath2 x "community" "description").getD (.str "")) }

/-- The dispatch-table row for `Users`. -/
def specItemUsers (fmt : Json → Json) (x : Json) : ResultItem :=
  { url := (jpath2 x "person" "actor_id").getD .null,
    title := (jpath2 x "person" "name").getD .null,
    content := fmt ((jpath2 x "person" "bio").getD (.str "")) }

/-- The dispatch-table row for `Posts`. -/
def specItemPosts (fmt : Json → Json) (x : Json) : ResultItem :=
  { url := (jpath2 x "post" "ap_id").getD .null,
    title := (jpath2 x "post" "name").getD .null,
    content := fmt ((jpath2 x "post" "body").getD (.str "")) }

/-- The dispatch-table row for `Comments`: the title comes from the
sibling `post`, not the comment. -/
def specItemComments (fmt : Json → Json) (x : Json) : ResultItem :=
  { url := (jpath2 x "comment" "ap_id").getD .null,
    title := (jpath2 x "post" "name").getD .null,
    content := fmt ((jpath2 x "comment" "content").getD (.str "")) }

/-- The module state of `lemmy.py` visible across calls (`base_url`
and `lemmy_type`); `response` reads it and never assigns to it, which
the state-passing wrapper `responseCall` makes explicit. -/
def responseCall (fmt : Json → Json) (st : EngineConfig) (j : Json) :
    Except Err (List ResultItem) × EngineConfig :=
  (response fmt st j, st)

/-! ## Basic lemmas -/

theorem except_ok_bind {α β : Type} (a : α) (f : α → Except Err β) :
    (Except.ok a >>= f : Except Err β) = f a := rfl

theorem except_error_bind {α β : Type} (e : Err) (f : α → Except Err β) :
    (Except.error e >>= f : Except Err β) = Except.error e := rfl

theorem alookup_setKey_self {α : Type} (ps : List (String × α)) (key : String) (v : α) :
    alookup (setKey ps key v) key = some v := by
  induction ps with
  | nil => simp [alookup, setKey]
  | cons hd tl ih =>
    obtain ⟨k, w⟩ := hd
    by_cases hk : k = key
    · simp [alookup, setKey, hk]
    · simp [alookup, setKey, hk, ih]

theorem alookup_setKey_ne {α : Type} (ps : List (String × α)) (key k : String) (v : α)
    (hne : k ≠ key) : alookup (setKey ps key v) k = alookup ps k := by
  induction ps with
  | nil => simp [alookup, setKey, Ne.symm hne]
  | cons hd tl ih =>
    obtain ⟨k2, w⟩ := hd
    by_cases hk : k2 = key
    · subst hk
      simp [alookup, setKey, Ne.symm hne]
    · simp only [setKey, hk, if_false, alookup]
      by_cases hk2 : k2 = k
      · simp [hk2]
      · simp [hk2, ih]

theorem mapExtract_eq_map (f : Json → Except Err ResultItem) (spec : Json → ResultItem)
    (xs : List Json) (h : ∀ x ∈ xs, f x = .ok (spec x)) :
    mapExtract f xs = .ok (xs.map spec) := by
  induction xs with
  | nil => rfl
  | cons x xs ih =>
    have hx := h x (by simp)
    have hrest := ih (fun y hy => h y (by simp [hy]))
    simp [mapExtract, hx, hrest]

theorem mapExtract_ok_length (f : Json → Except Err ResultItem) (xs : List Json)
    (rs : List ResultItem) (h : mapExtract f xs = .ok rs) : rs.length = xs.length := by
  induction xs generalizing rs with
  | nil =>
    simp only [mapExtract] at h
    cases h
    rfl
  | cons x xs ih =>
    simp only [mapExtract] at h
    cases hfx : f x with
    | error e => rw [hfx] at h; cases h
    | ok r =>
      rw [hfx] at h
      cases hrest : mapExtract f xs with
      | error e => rw [hrest] at h; cases h
      | ok rs2 =>
        rw [hrest] at h
        cases h
        simp [ih rs2 hrest]

theorem mapExtract_ok_get (f : Json → Except Err ResultItem) (xs : List Json)
    (rs : List ResultItem) (h : mapExtract f xs = .ok rs) :
    ∀ i (hi : i < xs.length) (hj : i < rs.length),
      f (xs.get ⟨i, hi⟩) = .ok (rs.get ⟨i, hj⟩) := by
  induction xs generalizing rs with
  | nil => intro i hi; exact absurd hi (by simp)
  | cons x xs ih =>
    simp only [mapExtract] at h
    cases hfx : f x with
    | error e => rw [hfx] at h; cases h
    | ok r =>
      rw [hfx] at h
      cases hrest : mapExtract f xs with
      | error e => rw [hrest] at h; cases h
      | ok rs2 =>
        rw [hrest] at h
        cases h
        intro i hi hj
        cases i with
        | zero => simpa using hfx
        | succ i => exact ih rs2 hrest i (by simpa using hi) (by simpa using hj)

/-! ## Per-kind extraction lemmas -/

theorem extractCommunity_wf (fmt : Json → Json) (x : Json) (h : wfCommunity x = true) :
    extractCommunity fmt x = .ok (specItemCommunities fmt x) := by
  cases x with
  | obj rf =>
    simp only [wfCommunity] at h
    cases hc : alookup rf "community" with
    | none => rw [hc] at h; cases h
    | some c =>
      rw [hc] at h
      cases c with
      | obj cf =>
        simp only [Bool.and_eq_true, Option.isSome_iff_exists] at h
        obtain ⟨⟨u, hu⟩, t, ht⟩ := h
        simp [extractCommunity, specItemCommunities, Json.asObj, objGet, objGetD,
          jpath2, Json.get?, hc, hu, ht, except_ok_bind]
      | null => cases h
      | bool b => cases h
      | num n => cases h
      | str s => cases h
      | arr xs => cases h
  | null => cases h
  | bool b => cases h
  | num n => cases h
  | str s => cases h
  | arr xs => cases h

theorem extractUser_wf (fmt : Json → Json) (x : Json) (h : wfUser x = true) :
    extractUser fmt x = .ok (specItemUsers fmt x) := by
  cases x with
  | obj rf =>
    simp only [wfUser] at h
    cases hc : alookup rf "person" with
    | none => rw [hc] at h; cases h
    | some c =>
      rw [hc] at h
      cases c with
      | obj pf =>
        simp only [Bool.and_eq_true, Option.isSome_iff_exists] at h
        obtain ⟨⟨u, hu⟩, t, ht⟩ := h
        simp [extractUser, specItemUsers, Json.asObj, objGet, objGetD,
          jpath2, Json.get?, hc, hu, ht, except_ok_bind]
      | null => cases h
      | bool b => cases h
      | num n => cases h
      | str s => cases h
      | arr xs => cases h
  | null => cases h
  | bool b => cases h
  | num n => cases h
  | str s => cases h
  | arr xs => cases h

theorem extractPost_wf (fmt : Json → Json) (x : Json) (h : wfPost x = true) :
    extractPost fmt x = .ok (specItemPosts fmt x) := by
  cases x with
  | obj rf =>
    simp only [wfPost] at h
    cases hc : alookup rf "post" with
    | none => rw [hc] at h; cases h
    | some c =>
      rw [hc] at h
      cases c with
      | obj pf =>
        simp only [Bool.and_eq_true, Option.isSome_iff_exists] at h
        obtain ⟨⟨u, hu⟩, t, ht⟩ := h
        simp [extractPost, specItemPosts, Json.asObj, objGet, objGetD,
          jpath2, Json.get?, hc, hu, ht, except_ok_bind]
      | null => cases h
      | bool b => cases h
      | num n => cases h
      | str s => cases h
      | arr xs => cases h
  | null => cases h
  | bool b => cases h
  | num n => cases h
  | str s => cases h
  | arr xs => cases h

theorem extractComment_wf (fmt : Json → Json) (x : Json) (h : wfComment x = true) :
    extractComment fmt x = .ok (specItemComments fmt x) := by
  cases x with
  | obj rf =>
    simp only [wfComment] at h
    cases hc : alookup rf "comment" with
    | none => rw [hc] at h; cases h
    | some c =>
      cases hp : alookup rf "post" with
      | none => cases c <;> rw [hc, hp] at h <;> cases h
      | some p =>
        rw [hc, hp] at h
        cases c with
        | obj cf =>
          cases p with
          | obj pf =>
            simp only [Bool.and_eq_true, Option.isSome_iff_exists] at h
            obtain ⟨⟨⟨u, hu⟩, b, hb⟩, t, ht⟩ := h
            simp [extractComment, specItemComments, Json.asObj, objGet, objGetD,
              jpath2, Json.get?, hc, hp, hu, hb, ht, except_ok_bind]
          | null => cases h
          | bool bb => cases h
          | num n => cases h
          | str s => cases h
          | arr xs => cases h
        | null => cases hcc : p <;> cases h
        | bool bb => cases hcc : p <;> cases h
        | num n => cases hcc : p <;> cases h
        | str s => cases hcc : p <;> cases h
        | arr xs => cases hcc : p <;> cases h
  | null => cases h
  | bool b => cases h
  | num n => cases h
  | str s => cases h
  | arr xs => cases h

/-! ## Dispatch lemmas -/

theorem response_eq_communities (fmt : Json → Json) (bu : List Nat) (j : Json) :
    response fmt ⟨bu, "Communities"⟩ j = _get_communities fmt j := rfl

theorem response_eq_users (fmt : Json → Json) (bu : List Nat) (j : Json) :
    response fmt ⟨bu, "Users"⟩ j = _get_users fmt j := rfl

theorem response_eq_posts (fmt : Json → Json) (bu : List Nat) (j : Json) :
    response fmt ⟨bu, "Posts"⟩ j = _get_posts fmt j := rfl

theorem response_eq_comments (fmt : Json → Json) (bu : List Nat) (j : Json) :
    response fmt ⟨bu, "Comments"⟩ j = _get_comments fmt j := rfl

theorem get_communities_obj (fmt : Json → Json) (jf : List (String × Json)) (xs : List Json)
    (h : alookup jf "communities" = some (.arr xs)) :
    _get_communities fmt (.obj jf) = mapExtract (extractCommunity fmt) xs := by
  simp [_get_communities, Json.asObj, objGet, Json.asArr, h, except_ok_bind]

theorem get_users_obj (fmt : Json → Json) (jf : List (String × Json)) (xs : List Json)
    (h : alookup jf "users" = some (.arr xs)) :
    _get_users fmt (.obj jf) = mapExtract (extractUser fmt) xs := by
  simp [_get_users, Json.asObj, objGet, Json.asArr, h, except_ok_bind]

theorem get_posts_obj (fmt : Json → Json) (jf : List (String × Json)) (xs : List Json)
    (h : alookup jf "posts" = some (.arr xs)) :
    _get_posts fmt (.obj jf) = mapExtract (extractPost fmt) xs := by
  simp [_get_posts, Json.asObj, objGet, Json.asArr, h, except_ok_bind]

theorem get_comments_obj (fmt : Json → Json) (jf : List (String × Json)) (xs : List Json)
    (h : alookup jf "comments" = some (.arr xs)) :
    _get_comments fmt (.obj jf) = mapExtract (extractComment fmt) xs := by
  simp [_get_comments, Json.asObj, objGet, Json.asArr, h, except_ok_bind]

/-! ## Claim theorems -/

/-- Claim C1: for every valid result_kind in {Communities, Users, Posts,
Comments} and every JSON response object containing the corresponding
source array (each element carrying the fields of the dispatch table),
`response` emits exactly one result item per element of that array,
taking url, title and content from the spec's field paths
(communities / community.actor_id / community.title /
community.description; users / person.actor_id / person.name /
person.bio; posts / post.ap_id / post.name / post.body;
comments / comment.ap_id / post.name / comment.content), with content
passed through the markdown-to-plain-text conversion `fmt`. -/
theorem c1_dispatch_table (fmt : Json → Json) (bu : List Nat)
    (jf : List (String × Json)) (xs : List Json) :
    (alookup jf "communities" = some (.arr xs) → (∀ x ∈ xs, wfCommunity x = true) →
      response fmt ⟨bu, "Communities"⟩ (.obj jf) = .ok (xs.map (specItemCommunities fmt))) ∧
    (alookup jf "users" = some (.arr xs) → (∀ x ∈ xs, wfUser x = true) →
      response fmt ⟨bu, "Users"⟩ (.obj jf) = .ok (xs.map (specItemUsers fmt))) ∧
    (alookup jf "posts" = some (.arr xs) → (∀ x ∈ xs, wfPost x = true) →
      response fmt ⟨bu, "Posts"⟩ (.obj jf) = .ok (xs.map (specItemPosts fmt))) ∧
    (alookup jf "comments" = some (.arr xs) → (∀ x ∈ xs, wfComment x = true) →
      response fmt ⟨bu, "Comments"⟩ (.obj jf) = .ok (xs.map (specItemComments fmt))) := by
  refine ⟨?_, ?_, ?_, ?_⟩
  · intro h hwf
    rw [response_eq_communities, get_communities_obj fmt jf xs h]
    exact mapExtract_eq_map _ _ xs (fun x hx => extractCommunity_wf fmt x (hwf x hx))
  · intro h hwf
    rw [response_eq_users, get_users_obj fmt jf xs h]
    exact mapExtract_eq_map _ _ xs (fun x hx => extractUser_wf fmt x (hwf x hx))
  · intro h hwf
    rw [response_eq_posts, get_posts_obj fmt jf xs h]
    exact mapExtract_eq_map _ _ xs (fun x hx => extractPost_wf fmt x (hwf x hx))
  · intro h hwf
    rw [response_eq_comments, get_comments_obj fmt jf xs h]
    exact mapExtract_eq_map _ _ xs (fun x hx => extractComment_wf fmt x (hwf x hx))

/-- Witness for C1: each of the four kinds evaluated on a one-element
response of its kind. -/
theorem c1_dispatch_table_witness :
    (response (fun j => j) ⟨[], "Communities"⟩
        (.obj [("communities", .arr [.obj [("community",
          .obj [("actor_id", .str "https://x/c/foo"), ("title", .str "Foo"),
                ("description", .str "desc")])]])]) =
      .ok ([Json.obj [("community",
          .obj [("actor_id", .str "https://x/c/foo"), ("title", .str "Foo"),
                ("description", .str "desc")])]].map (specItemCommunities (fun j => j)))) ∧
    (response (fun j => j) ⟨[], "Users"⟩
        (.obj [("users", .arr [.obj [("person",
          .obj [("actor_id", .str "https://x/u/ann"), ("name", .str "ann")])]])]) =
      .ok ([Json.obj [("person",
          .obj [("actor_id", .str "https://x/u/ann"), ("name", .str "ann")])]].map
            (specItemUsers (fun j => j)))) ∧
    (response (fun j => j) ⟨[], "Posts"⟩
        (.obj [("posts", .arr [.obj [("post",
          .obj [("ap_id", .str "https://x/post/1"), ("name", .str "P"),
                ("body", .str "b")])]])]) =
      .ok ([Json.obj [("post",
          .obj [("ap_id", .str "https://x/post/1"), ("name", .str "P"),
                ("body", .str "b")])]].map (specItemPosts (fun j => j)))) ∧
    (response (fun j => j) ⟨[], "Comments"⟩
        (.obj [("comments", .arr [.obj [("comment",
          .obj [("ap_id", .str "https://x/comment/2"), ("content", .str "hi")]),
          ("post", .obj [("name", .str "T")])]])]) =
      .ok ([Json.obj [("comment",
          .obj [("ap_id", .str "https://x/comment/2"), ("content", .str "hi")]),
          ("post", .obj [("name", .str "T")])]].map (specItemComments (fun j => j)))) :=
  ⟨(c1_dispatch_table (fun j => j) [] _ _).1 rfl (by decide),
   (c1_dispatch_table (fun j => j) [] _ _).2.1 rfl (by decide),
   (c1_dispatch_table (fun j => j) [] _ _).2.2.1 rfl (by decide),
   (c1_dispatch_table (fun j => j) [] _ _).2.2.2 rfl (by decide)⟩

theorem extractComment_ok_wf (fmt : Json → Json) (x : Json) (r : ResultItem)
    (h : extractComment fmt x = .ok r) : wfComment x = true := by
  cases x with
  | obj rf =>
    simp only [extractComment, Json.asObj, except_ok_bind] at h
    cases hc : alookup rf "comment" with
    | none => simp [objGet, hc, except_error_bind] at h
    | some c =>
      simp only [objGet, hc, except_ok_bind] at h
      cases c with
      | obj cf =>
        simp only [Json.asObj, except_ok_bind] at h
        cases hu : alookup cf "ap_id" with
        | none => simp [objGet, hu, except_error_bind] at h
        | some u =>
          simp only [objGet, hu, except_ok_bind] at h
          cases hp : alookup rf "post" with
          | none => simp [objGet, hp, except_error_bind] at h
          | some p =>
            simp only [objGet, hp, except_ok_bind] at h
            cases p with
            | obj pf =>
              simp only [Json.asObj, except_ok_bind] at h
              cases ht : alookup pf "name" with
              | none => simp [objGet, ht, except_error_bind] at h
              | some t =>
                simp only [objGet, ht, except_ok_bind] at h
                cases hb : alookup cf "content" with
                | none => simp [objGet, hb, except_error_bind] at h
                | some b =>
                  simp [wfComment, hc, hp, hu, ht, hb]
            | null => simp [Json.asObj, except_error_bind] at h
            | bool bb => simp [Json.asObj, except_error_bind] at h
            | num nn => simp [Json.asObj, except_error_bind] at h
            | str ss => simp [Json.asObj, except_error_bind] at h
            | arr aa => simp [Json.asObj, except_error_bind] at h
      | null => simp [Json.asObj, except_error_bind] at h
      | bool bb => simp [Json.asObj, except_error_bind] at h
      | num nn => simp [Json.asObj, except_error_bind] at h
      | str ss => simp [Json.asObj, except_error_bind] at h
      | arr aa => simp [Json.asObj, except_error_bind] at h
  | null => simp [extractComment, Json.asObj, except_error_bind] at h
  | bool b => simp [extractComment, Json.asObj, except_error_bind] at h
  | num n => simp [extractComment, Json.asObj, except_error_bind] at h
  | str s => simp [extractComment, Json.asObj, except_error_bind] at h
  | arr xs => simp [extractComment, Json.asObj, except_error_bind] at h

theorem extractComment_ok_title (fmt : Json → Json) (x : Json) (r : ResultItem)
    (h : extractComment fmt x = .ok r) :
    r.title = (jpath2 x "post" "name").getD .null := by
  have hwf := extractComment_ok_wf fmt x r h
  have hspec := extractComment_wf fmt x hwf
  rw [h] at hspec
  cases hspec
  rfl

/-- Claim C4: for every Comments-kind response, the title of each
emitted result item equals the `name` field of the enclosing `post`
sub-object of its source element, not any field of the comment itself. -/
theorem c4_comment_title_from_post (fmt : Json → Json) (bu : List Nat)
    (jf : List (String × Json)) (xs : List Json) (rs : List ResultItem)
    (harr : alookup jf "comments" = some (.arr xs))
    (hres : response fmt ⟨bu, "Comments"⟩ (.obj jf) = .ok rs) :
    ∀ i (hi : i < xs.length) (hj : i < rs.length),
      (rs.get ⟨i, hj⟩).title = (jpath2 (xs.get ⟨i, hi⟩) "post" "name").getD .null := by
  rw [response_eq_comments, get_comments_obj fmt jf xs harr] at hres
  intro i hi hj
  exact extractComment_ok_title fmt _ _ (mapExtract_ok_get _ _ _ hres i hi hj)

/-- Witness for C4: a comment element with `post.name = "Thread X"` and
`comment.content = "hi"` yields a result whose title is `"Thread X"`,
read from the enclosing post. -/
theorem c4_comment_title_from_post_witness :
    ([ResultItem.mk (Json.str "https://y/comment/7") (Json.str "Thread X") (Json.str "hi")].get
        ⟨0, by decide⟩).title =
      (jpath2 ([Json.obj [("comment",
          .obj [("ap_id", .str "https://y/comment/7"), ("content", .str "hi")]),
          ("post", .obj [("name", .str "Thread X")])]].get ⟨0, by decide⟩)
        "post" "name").getD .null :=
  c4_comment_title_from_post (fun j => j) []
    [("comments", .arr [.obj [("comment",
        .obj [("ap_id", .str "https://y/comment/7"), ("content", .str "hi")]),
        ("post", .obj [("name", .str "Thread X")])]])]
    [.obj [("comment", .obj [("ap_id", .str "https://y/comment/7"), ("content", .str "hi")]),
        ("post", .obj [("name", .str "Thread X")])]]
    [ResultItem.mk (Json.str "https://y/comment/7") (Json.str "Thread X") (Json.str "hi")]
    rfl rfl 0 (by decide) (by decide)

/-- Claim C5: for the Communities, Users and Posts kinds, an element
whose optional content field (`community.description`, `person.bio`,
`post.body`) is absent does not fail: parsing succeeds and that item's
content is the empty string passed through the conversion `fmt`. -/
theorem c5_optional_content_defaults (fmt : Json → Json) (bu : List Nat) (u t : Json) :
    (response fmt ⟨bu, "Communities"⟩ (.obj [("communities", .arr [.obj [("community",
        .obj [("actor_id", u), ("title", t)])]])]) = .ok [⟨u, t, fmt (.str "")⟩]) ∧
    (response fmt ⟨bu, "Users"⟩ (.obj [("users", .arr [.obj [("person",
        .obj [("actor_id", u), ("name", t)])]])]) = .ok [⟨u, t, fmt (.str "")⟩]) ∧
    (response fmt ⟨bu, "Posts"⟩ (.obj [("posts", .arr [.obj [("post",
        .obj [("ap_id", u), ("name", t)])]])]) = .ok [⟨u, t, fmt (.str "")⟩]) :=
  ⟨rfl, rfl, rfl⟩

/-- Claim C6: for the Comments kind, an element whose `comment`
sub-object lacks the `content` field makes parsing fail with a
`MalformedResponse` lookup error (no empty-string default), surfaced
unmodified to the caller. -/
theorem c6_missing_comment_content_fails (fmt : Json → Json) (bu : List Nat) (u pn : Json) :
    response fmt ⟨bu, "Comments"⟩ (.obj [("comments", .arr [.obj [("comment",
        .obj [("ap_id", u)]), ("post", .obj [("name", pn)])]])]) =
      .error .MalformedResponse :=
  rfl

/-- Claim C7: for every valid result_kind and well-formed response, the
output preserves the order of the source array: the output length
equals the array length and the i-th output item is extracted from the
i-th array element (no re-sorting, filtering or deduplication). -/
theorem c7_order_preserved (fmt : Json → Json) (bu : List Nat)
    (jf : List (String × Json)) (xs : List Json) (rs : List ResultItem) :
    (alookup jf "communities" = some (.arr xs) →
      response fmt ⟨bu, "Communities"⟩ (.obj jf) = .ok rs →
      rs.length = xs.length ∧ ∀ i (hi : i < xs.length) (hj : i < rs.length),
        extractCommunity fmt (xs.get ⟨i, hi⟩) = .ok (rs.get ⟨i, hj⟩)) ∧
    (alookup jf "users" = some (.arr xs) →
      response fmt ⟨bu, "Users"⟩ (.obj jf) = .ok rs →
      rs.length = xs.length ∧ ∀ i (hi : i < xs.length) (hj : i < rs.length),
        extractUser fmt (xs.get ⟨i, hi⟩) = .ok (rs.get ⟨i, hj⟩)) ∧
    (alookup jf "posts" = some (.arr xs) →
      response fmt ⟨bu, "Posts"⟩ (.obj jf) = .ok rs →
      rs.length = xs.length ∧ ∀ i (hi : i < xs.length) (hj : i < rs.length),
        extractPost fmt (xs.get ⟨i, hi⟩) = .ok (rs.get ⟨i, hj⟩)) ∧
    (alookup jf "comments" = some (.arr xs) →
      response fmt ⟨bu, "Comments"⟩ (.obj jf) = .ok rs →
      rs.length = xs.length ∧ ∀ i (hi : i < xs.length) (hj : i < rs.length),
        extractComment fmt (xs.get ⟨i, hi⟩) = .ok (rs.get ⟨i, hj⟩)) := by
  refine ⟨?_, ?_, ?_, ?_⟩
  · intro h hres
    rw [response_eq_communities, get_communities_obj fmt jf xs h] at hres
    exact ⟨mapExtract_ok_length _ _ _ hres, mapExtract_ok_get _ _ _ hres⟩
  · intro h hres
    rw [response_eq_users, get_users_obj fmt jf xs h] at hres
    exact ⟨mapExtract_ok_length _ _ _ hres, mapExtract_ok_get _ _ _ hres⟩
  · intro h hres
    rw [response_eq_posts, get_posts_obj fmt jf xs h] at hres
    exact ⟨mapExtract_ok_length _ _ _ hres, mapExtract_ok_get _ _ _ hres⟩
  · intro h hres
    rw [response_eq_comments, get_comments_obj fmt jf xs h] at hres
    exact ⟨mapExtract_ok_length _ _ _ hres, mapExtract_ok_get _ _ _ hres⟩

/-- Witness for C7: each kind on a one-element array, checking output
length and the item extracted at index 0. -/
theorem c7_order_preserved_witness :
    ([ResultItem.mk (Json.str "cu") (Json.str "ct") (Json.str "")].length =
        [Json.obj [("community", Json.obj [("actor_id", .str "cu"), ("title", .str "ct")])]].length ∧
      extractCommunity (fun j => j)
          ([Json.obj [("community", Json.obj [("actor_id", .str "cu"), ("title", .str "ct")])]].get
            ⟨0, by decide⟩) =
        .ok ([ResultItem.mk (Json.str "cu") (Json.str "ct") (Json.str "")].get ⟨0, by decide⟩)) ∧
    ([ResultItem.mk (Json.str "uu") (Json.str "un") (Json.str "")].length =
        [Json.obj [("person", Json.obj [("actor_id", .str "uu"), ("name", .str "un")])]].length ∧
      extractUser (fun j => j)
          ([Json.obj [("person", Json.obj [("actor_id", .str "uu"), ("name", .str "un")])]].get
            ⟨0, by decide⟩) =
        .ok ([ResultItem.mk (Json.str "uu") (Json.str "un") (Json.str "")].get ⟨0, by decide⟩)) ∧
    ([ResultItem.mk (Json.str "pu") (Json.str "pn") (Json.str "")].length =
        [Json.obj [("post", Json.obj [("ap_id", .str "pu"), ("name", .str "pn")])]].length ∧
      extractPost (fun j => j)
          ([Json.obj [("post", Json.obj [("ap_id", .str "pu"), ("name", .str "pn")])]].get
            ⟨0, by decide⟩) =
        .ok ([ResultItem.mk (Json.str "pu") (Json.str "pn") (Json.str "")].get ⟨0, by decide⟩)) ∧
    ([ResultItem.mk (Json.str "mu") (Json.str "mt") (Json.str "mc")].length =
        [Json.obj [("comment", Json.obj [("ap_id", .str "mu"), ("content", .str "mc")]),
          ("post", Json.obj [("name", .str "mt")])]].length ∧
      extractComment (fun j => j)
          ([Json.obj [("comment", Json.obj [("ap_id", .str "mu"), ("content", .str "mc")]),
            ("post", Json.obj [("name", .str "mt")])]].get ⟨0, by decide⟩) =
        .ok ([ResultItem.mk (Json.str "mu") (Json.str "mt") (Json.str "mc")].get ⟨0, by decide⟩)) :=
  ⟨⟨((c7_order_preserved (fun j => j) []
        [("communities", .arr [.obj [("community",
          .obj [("actor_id", .str "cu"), ("title", .str "ct")])]])]
        [.obj [("community", .obj [("actor_id", .str "cu"), ("title", .str "ct")])]]
        [⟨.str "cu", .str "ct", .str ""⟩]).1 rfl rfl).1,
    ((c7_order_preserved (fun j => j) []
        [("communities", .arr [.obj [("community",
          .obj [("actor_id", .str "cu"), ("title", .str "ct")])]])]
        [.obj [("community", .obj [("actor_id", .str "cu"), ("title", .str "ct")])]]
        [⟨.str "cu", .str "ct", .str ""⟩]).1 rfl rfl).2 0 (by decide) (by decide)⟩,
   ⟨((c7_order_preserved (fun j => j) []
        [("users", .arr [.obj [("person",
          .obj [("actor_id", .str "uu"), ("name", .str "un")])]])]
        [.obj [("person", .obj [("actor_id", .str "uu"), ("name", .str "un")])]]
        [⟨.str "uu", .str "un", .str ""⟩]).2.1 rfl rfl).1,
    ((c7_order_preserved (fun j => j) []
        [("users", .arr [.obj [("person",
          .obj [("actor_id", .str "uu"), ("name", .str "un")])]])]
        [.obj [("person", .obj [("actor_id", .str "uu"), ("name", .str "un")])]]
        [⟨.str "uu", .str "un", .str ""⟩]).2.1 rfl rfl).2 0 (by decide) (by decide)⟩,
   ⟨((c7_order_preserved (fun j => j) []
        [("posts", .arr [.obj [("post",
          .obj [("ap_id", .str "pu"), ("name", .str "pn")])]])]
        [.obj [("post", .obj [("ap_id", .str "pu"), ("name", .str "pn")])]]
        [⟨.str "pu", .str "pn", .str ""⟩]).2.2.1 rfl rfl).1,
    ((c7_order_preserved (fun j => j) []
        [("posts", .arr [.obj [("post",
          .obj [("ap_id", .str "pu"), ("name", .str "pn")])]])]
        [.obj [("post", .obj [("ap_id", .str "pu"), ("name", .str "pn")])]]
        [⟨.str "pu", .str "pn", .str ""⟩]).2.2.1 rfl rfl).2 0 (by decide) (by decide)⟩,
   ⟨((c7_order_preserved (fun j => j) []
        [("comments", .arr [.obj [("comment",
          .obj [("ap_id", .str "mu"), ("content", .str "mc")]),
          ("post", .obj [("name", .str "mt")])]])]
        [.obj [("comment", .obj [("ap_id", .str "mu"), ("content", .str "mc")]),
          ("post", .obj [("name", .str "mt")])]]
        [⟨.str "mu", .str "mt", .str "mc"⟩]).2.2.2 rfl rfl).1,
    ((c7_order_preserved (fun j => j) []
        [("comments", .arr [.obj [("comment",
          .obj [("ap_id", .str "mu"), ("content", .str "mc")]),
          ("post", .obj [("name", .str "mt")])]])]
        [.obj [("comment", .obj [("ap_id", .str "mu"), ("content", .str "mc")]),
          ("post", .obj [("name", .str "mt")])]]
        [⟨.str "mu", .str "mt", .str "mc"⟩]).2.2.2 rfl rfl).2 0 (by decide) (by decide)⟩⟩

/-- Claim C8: `response` is deterministic and stateless per call: the
module state (`base_url`, `lemmy_type`) is read but never assigned, so
a call leaves it unchanged, and a second invocation on the same JSON
input from the post-call state yields an identical output sequence. -/
theorem c8_stateless_deterministic (fmt : Json → Json) (st : EngineConfig) (j : Json) :
    (responseCall fmt st j).2 = st ∧
    (responseCall fmt (responseCall fmt st j).2 j).1 = (responseCall fmt st j).1 :=
  ⟨rfl, rfl⟩

theorem get_communities_congr (fmt : Json → Json) (jf1 jf2 : List (String × Json))
    (h : alookup jf1 "communities" = alookup jf2 "communities") :
    _get_communities fmt (.obj jf1) = _get_communities fmt (.obj jf2) := by
  simp only [_get_communities, Json.asObj, except_ok_bind, objGet]
  rw [h]

theorem get_users_congr (fmt : Json → Json) (jf1 jf2 : List (String × Json))
    (h : alookup jf1 "users" = alookup jf2 "users") :
    _get_users fmt (.obj jf1) = _get_users fmt (.obj jf2) := by
  simp only [_get_users, Json.asObj, except_ok_bind, objGet]
  rw [h]

theorem get_posts_congr (fmt : Json → Json) (jf1 jf2 : List (String × Json))
    (h : alookup jf1 "posts" = alookup jf2 "posts") :
    _get_posts fmt (.obj jf1) = _get_posts fmt (.obj jf2) := by
  simp only [_get_posts, Json.asObj, except_ok_bind, objGet]
  rw [h]

theorem get_comments_congr (fmt : Json → Json) (jf1 jf2 : List (String × Json))
    (h : alookup jf1 "comments" = alookup jf2 "comments") :
    _get_comments fmt (.obj jf1) = _get_comments fmt (.obj jf2) := by
  simp only [_get_comments, Json.asObj, except_ok_bind, objGet]
  rw [h]

/-- Claim C10: for a fixed valid result_kind, the output of `response`
depends only on the source array selected for that kind: two JSON
response objects that agree on that top-level key yield identical
output, however they differ on or omit every other top-level key. -/
theorem c10_depends_only_on_source_array (fmt : Json → Json) (bu : List Nat)
    (jf1 jf2 : List (String × Json)) :
    (alookup jf1 "communities" = alookup jf2 "communities" →
      response fmt ⟨bu, "Communities"⟩ (.obj jf1) = response fmt ⟨bu, "Communities"⟩ (.obj jf2)) ∧
    (alookup jf1 "users" = alookup jf2 "users" →
      response fmt ⟨bu, "Users"⟩ (.obj jf1) = response fmt ⟨bu, "Users"⟩ (.obj jf2)) ∧
    (alookup jf1 "posts" = alookup jf2 "posts" →
      response fmt ⟨bu, "Posts"⟩ (.obj jf1) = response fmt ⟨bu, "Posts"⟩ (.obj jf2)) ∧
    (alookup jf1 "comments" = alookup jf2 "comments" →
      response fmt ⟨bu, "Comments"⟩ (.obj jf1) = response fmt ⟨bu, "Comments"⟩ (.obj jf2)) := by
  refine ⟨?_, ?_, ?_, ?_⟩
  · intro h
    rw [response_eq_communities, response_eq_communities]
    exact get_communities_congr fmt jf1 jf2 h
  · intro h
    rw [response_eq_users, response_eq_users]
    exact get_users_congr fmt jf1 jf2 h
  · intro h
    rw [response_eq_posts, response_eq_posts]
    exact get_posts_congr fmt jf1 jf2 h
  · intro h
    rw [response_eq_comments, response_eq_comments]
    exact get_comments_congr fmt jf1 jf2 h

/-- Witness for C10: two response objects agreeing on each source array
but differing on (or omitting) every other top-level key. -/
theorem c10_depends_only_on_source_array_witness :
    (response (fun j => j) ⟨[], "Communities"⟩
        (.obj [("communities", .arr []), ("extra", .num 3)]) =
      response (fun j => j) ⟨[], "Communities"⟩
        (.obj [("zzz", .bool true), ("communities", .arr [])])) ∧
    (response (fun j => j) ⟨[], "Users"⟩
        (.obj [("communities", .arr []), ("extra", .num 3)]) =
      response (fun j => j) ⟨[], "Users"⟩
        (.obj [("zzz", .bool true), ("communities", .arr [])])) ∧
    (response (fun j => j) ⟨[], "Posts"⟩
        (.obj [("communities", .arr []), ("extra", .num 3)]) =
      response (fun j => j) ⟨[], "Posts"⟩
        (.obj [("zzz", .bool true), ("communities", .arr [])])) ∧
    (response (fun j => j) ⟨[], "Comments"⟩
        (.obj [("communities", .arr []), ("extra", .num 3)]) =
      response (fun j => j) ⟨[], "Comments"⟩
        (.obj [("zzz", .bool true), ("communities", .arr [])])) :=
  ⟨(c10_depends_only_on_source_array (fun j => j) [] _ _).1 rfl,
   (c10_depends_only_on_source_array (fun j => j) [] _ _).2.1 rfl,
   (c10_depends_only_on_source_array (fun j => j) [] _ _).2.2.1 rfl,
   (c10_depends_only_on_source_array (fun j => j) [] _ _).2.2.2 rfl⟩

/-! ## Round-trip lemmas for `quote_plus` / `urlencode` -/

theorem safeByte_ne (b : Nat) (h : safeByte b = true) :
    b ≠ 37 ∧ b ≠ 43 ∧ b ≠ 38 ∧ b ≠ 61 ∧ b ≠ 32 := by
  simp only [safeByte, Bool.or_eq_true, Bool.and_eq_true, beq_iff_eq,
    decide_eq_true_eq] at h
  omega

theorem hexDigit_range (n : Nat) (h : n < 16) :
    (48 ≤ hexDigit n ∧ hexDigit n ≤ 57) ∨ (65 ≤ hexDigit n ∧ hexDigit n ≤ 70) := by
  unfold hexDigit
  split <;> omega

theorem hexVal_hexDigit (n : Nat) (h : n < 16) : hexVal (hexDigit n) = some n := by
  unfold hexVal hexDigit
  split_ifs <;> simp_all <;> omega

theorem percentDecode_cons_ne (b : Nat) (hb : b ≠ 37) (u : List Nat) :
    percentDecode (b :: u) = b :: percentDecode u := by
  rcases u with _ | ⟨c, _ | ⟨d, rest⟩⟩ <;> simp [percentDecode, hb]

theorem percentDecode_escape (h1 l : Nat) (x y : Nat) (u : List Nat)
    (hx : hexVal h1 = some x) (hy : hexVal l = some y) :
    percentDecode (37 :: h1 :: l :: u) = (16 * x + y) :: percentDecode u := by
  simp [percentDecode, hx, hy]

theorem plusToSpace_append (a b : List Nat) :
    plusToSpace (a ++ b) = plusToSpace a ++ plusToSpace b := by
  simp [plusToSpace]

theorem unquote_quoteByte (b : Nat) (hb : b < 256) (u : List Nat) :
    unquotePlus (quoteByte b ++ u) = b :: unquotePlus u := by
  by_cases h32 : b = 32
  · subst h32
    simp only [quoteByte, if_pos rfl, unquotePlus, plusToSpace, List.map_append,
      List.map_cons, List.map_nil, if_pos rfl, List.nil_append,
      List.singleton_append]
    exact percentDecode_cons_ne 32 (by omega) _
  · by_cases hsafe : safeByte b
    · obtain ⟨hb37, hb43, _, _, _⟩ := safeByte_ne b hsafe
      simp only [quoteByte, if_neg h32, if_pos hsafe, unquotePlus, plusToSpace,
        List.map_append, List.map_cons, List.map_nil, if_neg hb43,
        List.nil_append, List.singleton_append]
      exact percentDecode_cons_ne b hb37 _
    · have hdiv : b / 16 < 16 := Nat.div_lt_of_lt_mul (by omega)
      have hmod : b % 16 < 16 := Nat.mod_lt _ (by omega)
      have hd43 : hexDigit (b / 16) ≠ 43 := by
        rcases hexDigit_range _ hdiv with hr | hr <;> omega
      have hm43 : hexDigit (b % 16) ≠ 43 := by
        rcases hexDigit_range _ hmod with hr | hr <;> omega
      simp only [quoteByte, if_neg h32, if_neg hsafe, unquotePlus, plusToSpace,
        List.map_append, List.map_cons, List.map_nil, List.nil_append]
      rw [if_neg (by omega : ¬(37 : Nat) = 43), if_neg hd43, if_neg hm43]
      rw [List.cons_append, List.cons_append, List.cons_append, List.nil_append]
      rw [percentDecode_escape _ _ _ _ _ (hexVal_hexDigit _ hdiv) (hexVal_hexDigit _ hmod)]
      congr 1
      omega

theorem quotePlus_nil : quotePlus [] = [] := rfl

theorem quotePlus_cons (b : Nat) (s : List Nat) :
    quotePlus (b :: s) = quoteByte b ++ quotePlus s := by
  simp [quotePlus]

theorem unquote_quotePlus_append (s : List Nat) (hs : ∀ b ∈ s, b < 256) (u : List Nat) :
    unquotePlus (quotePlus s ++ u) = s ++ unquotePlus u := by
  induction s with
  | nil => simp [quotePlus_nil]
  | cons b s2 ih =>
    rw [quotePlus_cons, List.append_assoc, unquote_quoteByte b (hs b (by simp)) _,
      ih (fun c hc => hs c (by simp [hc]))]
    rfl

theorem unquotePlus_nil : unquotePlus [] = [] := rfl

theorem unquote_quotePlus (s : List Nat) (hs : ∀ b ∈ s, b < 256) :
    unquotePlus (quotePlus s) = s := by
  have := unquote_quotePlus_append s hs []
  simpa [unquotePlus_nil] using this

theorem quoteByte_mem_ne (b c : Nat) (hb : b < 256) (hc : c ∈ quoteByte b) :
    c ≠ 38 ∧ c ≠ 61 := by
  unfold quoteByte at hc
  split_ifs at hc with h32 hsafe
  · simp at hc
    omega
  · simp at hc
    have := safeByte_ne b hsafe
    omega
  · have hdiv : b / 16 < 16 := Nat.div_lt_of_lt_mul (by omega)
    have hmod : b % 16 < 16 := Nat.mod_lt _ (by omega)
    simp at hc
    rcases hc with hc | hc | hc
    · omega
    · rcases hexDigit_range _ hdiv with hr | hr <;> omega
    · rcases hexDigit_range _ hmod with hr | hr <;> omega

theorem not_mem_quotePlus (s : List Nat) (hs : ∀ b ∈ s, b < 256) :
    38 ∉ quotePlus s ∧ 61 ∉ quotePlus s := by
  constructor <;>
  · intro hmem
    simp only [quotePlus, List.mem_flatten, List.mem_map] at hmem
    obtain ⟨l, ⟨b, hb, rfl⟩, hcl⟩ := hmem
    have := quoteByte_mem_ne b _ (hs b hb) hcl
    omega

theorem splitOnByte_ne_nil (sep : Nat) (s : List Nat) : splitOnByte sep s ≠ [] := by
  cases s with
  | nil => simp [splitOnByte]
  | cons b rest =>
    cases hsp : splitOnByte sep rest with
    | nil => simp [splitOnByte, hsp]
    | cons g gs =>
      simp only [splitOnByte, hsp]
      split <;> simp

theorem splitOnByte_no_sep (sep : Nat) (a : List Nat) (h : sep ∉ a) :
    splitOnByte sep a = [a] := by
  induction a with
  | nil => rfl
  | cons b rest ih =>
    have hb : b ≠ sep := fun hb => h (by simp [hb])
    have hrest := ih (fun hmem => h (by simp [hmem]))
    simp [splitOnByte, hrest, hb]

theorem splitOnByte_append (sep : Nat) (a rest : List Nat) (h : sep ∉ a) :
    splitOnByte sep (a ++ sep :: rest) = a :: splitOnByte sep rest := by
  induction a with
  | nil =>
    simp only [List.nil_append, splitOnByte]
    cases hsp : splitOnByte sep rest with
    | nil => exact absurd hsp (splitOnByte_ne_nil sep rest)
    | cons g gs => simp
  | cons b a2 ih =>
    have hb : b ≠ sep := fun hb => h (by simp [hb])
    have ha2 := ih (fun hmem => h (by simp [hmem]))
    simp [splitOnByte, ha2, hb]

theorem splitFirst_append (sep : Nat) (k v : List Nat) (h : sep ∉ k) :
    splitFirst sep (k ++ sep :: v) = (k, v) := by
  induction k with
  | nil => simp [splitFirst]
  | cons b k2 ih =>
    have hb : b ≠ sep := fun hb => h (by simp [hb])
    have hk2 := ih (fun hmem => h (by simp [hmem]))
    simp [splitFirst, hb, hk2]

theorem decodeField (k v : List Nat) (hk : ∀ b ∈ k, b < 256) (hv : ∀ b ∈ v, b < 256) :
    (unquotePlus (splitFirst 61 (quotePlus k ++ 61 :: quotePlus v)).1,
      unquotePlus (splitFirst 61 (quotePlus k ++ 61 :: quotePlus v)).2) = (k, v) := by
  rw [splitFirst_append 61 _ _ (not_mem_quotePlus k hk).2]
  simp [unquote_quotePlus k hk, unquote_quotePlus v hv]

theorem not_mem_field (k v : List Nat) (hk : ∀ b ∈ k, b < 256) (hv : ∀ b ∈ v, b < 256) :
    38 ∉ quotePlus k ++ 61 :: quotePlus v := by
  intro hmem
  rcases List.mem_append.mp hmem with hmem | hmem
  · exact (not_mem_quotePlus k hk).1 hmem
  · rcases List.mem_cons.mp hmem with hmem | hmem
    · omega
    · exact (not_mem_quotePlus v hv).1 hmem

theorem decodeQuery_urlencode (args : List (List Nat × List Nat)) (hne : args ≠ [])
    (hok : ∀ kv ∈ args, (∀ b ∈ kv.1, b < 256) ∧ (∀ b ∈ kv.2, b < 256)) :
    decodeQuery (urlencode args) = args := by
  induction args with
  | nil => exact absurd rfl hne
  | cons kv rest ih =>
    obtain ⟨k, v⟩ := kv
    obtain ⟨hk, hv⟩ := hok (k, v) (by simp)
    cases rest with
    | nil =>
      simp only [urlencode, decodeQuery]
      rw [splitOnByte_no_sep 38 _ (not_mem_field k v hk hv)]
      simpa using decodeField k v hk hv
    | cons kv2 rest2 =>
      have hrest := ih (by simp)
        (fun kv3 hkv3 => hok kv3 (by simp [hkv3]))
      simp only [urlencode, decodeQuery] at hrest ⊢
      have heq := splitOnByte_append 38 (quotePlus k ++ 61 :: quotePlus v)
        (urlencode (kv2 :: rest2)) (not_mem_field k v hk hv)
      simp only [List.cons_append, List.append_assoc] at heq ⊢
      rw [heq]
      simp only [List.map_cons]
      rw [hrest]
      have := decodeField k v hk hv
      simp only [Prod.mk.injEq] at this
      simp [this.1, this.2]

theorem natToDigitsAux_range (fuel : Nat) :
    ∀ n, ∀ b ∈ natToDigitsAux fuel n, 48 ≤ b ∧ b ≤ 57 := by
  induction fuel with
  | zero => intro n b hb; simp [natToDigitsAux] at hb
  | succ fuel ih =>
    intro n b hb
    simp only [natToDigitsAux] at hb
    split at hb
    · simp at hb
      omega
    · rcases List.mem_append.mp hb with hb | hb
      · exact ih (n / 10) b hb
      · simp at hb
        have := Nat.mod_lt n (show 0 < 10 by omega)
        omega

theorem digitsVal_append_digit (xs : List Nat) (d : Nat) :
    digitsVal (xs ++ [d]) = 10 * digitsVal xs + (d - 48) := by
  simp [digitsVal, List.foldl_append]

theorem digitsVal_natToDigitsAux (fuel : Nat) :
    ∀ n, n < fuel → digitsVal (natToDigitsAux fuel n) = n := by
  induction fuel with
  | zero => intro n hn; omega
  | succ fuel ih =>
    intro n hn
    simp only [natToDigitsAux]
    split
    · simp only [digitsVal, List.foldl]
      omega
    · have h10 : 10 ≤ n := by omega
      have hdivlt : n / 10 < fuel := by
        have := Nat.div_lt_self (show 0 < n by omega) (show 1 < 10 by omega)
        omega
      rw [digitsVal_append_digit, ih (n / 10) hdivlt]
      omega

theorem digitsVal_natToDigits (n : Nat) : digitsVal (natToDigits n) = n :=
  digitsVal_natToDigitsAux (n + 1) n (by omega)

theorem natToDigits_bytes_lt (n : Nat) : ∀ b ∈ natToDigits n, b < 256 := by
  intro b hb
  have := natToDigitsAux_range (n + 1) n b hb
  omega

/-- Claim C2: for every query byte string q, every page number n and
every configuration with a valid result_kind, the URL built by
`request` is `{base_url}api/v3/search?` followed by the URL-encoded
parameters, which decode back to exactly
`q = q`, `page = str(n)` (with `str(n)` reading back as `n`) and
`type_ = result_kind`; the mapping is a function of
(query, page, base_url, result_kind). -/
theorem c2_request_url_roundtrip (bu : List Nat) (kind : String) (q : List Nat) (n : Nat)
    (hkind : kind = "Communities" ∨ kind = "Users" ∨ kind = "Posts" ∨ kind = "Comments")
    (hq : ∀ b ∈ q, b < 256) :
    requestUrl ⟨bu, kind⟩ q n =
      bu ++ strBytes "api/v3/search?" ++
        urlencode [(strBytes "q", q), (strBytes "page", natToDigits n),
          (strBytes "type_", strBytes kind)] ∧
    decodeQuery (urlencode [(strBytes "q", q), (strBytes "page", natToDigits n),
          (strBytes "type_", strBytes kind)]) =
      [(strBytes "q", q), (strBytes "page", natToDigits n), (strBytes "type_", strBytes kind)] ∧
    digitsVal (natToDigits n) = n := by
  refine ⟨rfl, ?_, digitsVal_natToDigits n⟩
  apply decodeQuery_urlencode _ (by simp)
  intro kv hkv
  simp only [List.mem_cons, List.not_mem_nil, or_false] at hkv
  rcases hkv with rfl | rfl | rfl
  · refine ⟨?_, hq⟩
    show ∀ b ∈ strBytes "q", b < 256
    decide
  · refine ⟨?_, fun b hb => natToDigits_bytes_lt n b hb⟩
    show ∀ b ∈ strBytes "page", b < 256
    decide
  · refine ⟨?_, ?_⟩
    · show ∀ b ∈ strBytes "type_", b < 256
      decide
    · show ∀ b ∈ strBytes kind, b < 256
      rcases hkind with rfl | rfl | rfl | rfl <;> decide

/-- Witness for C2: the query `"hello world"` on page 2 of a
Communities engine. -/
theorem c2_request_url_roundtrip_witness :
    requestUrl ⟨strBytes "https://lemmy.ml/", "Communities"⟩ (strBytes "hello world") 2 =
      strBytes "https://lemmy.ml/" ++ strBytes "api/v3/search?" ++
        urlencode [(strBytes "q", strBytes "hello world"),
          (strBytes "page", natToDigits 2),
          (strBytes "type_", strBytes "Communities")] ∧
    decodeQuery (urlencode [(strBytes "q", strBytes "hello world"),
          (strBytes "page", natToDigits 2),
          (strBytes "type_", strBytes "Communities")]) =
      [(strBytes "q", strBytes "hello world"), (strBytes "page", natToDigits 2),
        (strBytes "type_", strBytes "Communities")] ∧
    digitsVal (natToDigits 2) = 2 :=
  c2_request_url_roundtrip (strBytes "https://lemmy.ml/") "Communities"
    (strBytes "hello world") 2 (Or.inl rfl) (by decide)

/-- Claim C3 is refuted as stated: with the invalid kind `"Unknown"`,
`request` still builds a request descriptor (no error is raised before
the descriptor is built; the host would issue the network call), while
only `response` raises `UnsupportedKind`. -/
theorem c3_counterexample :
    (request ⟨strBytes "https://lemmy.ml/", "Unknown"⟩ (strBytes "test")
        [("pageno", PVal.nat 1)]).isSome = true ∧
    response (fun j => j) ⟨strBytes "https://lemmy.ml/", "Unknown"⟩ (.obj []) =
      .error .UnsupportedKind :=
  ⟨by decide, rfl⟩

/-- Claim C3 (amended): if the configured result_kind is not one of the
four enumerated values, `response` fails with `UnsupportedKind` on
every input, but the error is raised only when a response is
processed: `request` performs no validation and still builds the
request descriptor. -/
theorem c3_unsupported_kind (fmt : Json → Json) (cfg : EngineConfig) (j : Json)
    (h1 : cfg.lemmy_type ≠ "Communities") (h2 : cfg.lemmy_type ≠ "Users")
    (h3 : cfg.lemmy_type ≠ "Posts") (h4 : cfg.lemmy_type ≠ "Comments") :
    response fmt cfg j = .error .UnsupportedKind ∧
    ∀ q (params : Params) n, alookup params "pageno" = some (.nat n) →
      request cfg q params = some (setKey params "url" (.bytes (requestUrl cfg q n))) := by
  constructor
  · simp [response, h1, h2, h3, h4]
  · intro q params n h
    simp [request, h]

/-- Witness for the amended C3: the kind `"Unknown"`. -/
theorem c3_unsupported_kind_witness :
    response (fun j => j) ⟨[], "Unknown"⟩ (.obj [("communities", .arr [])]) =
      .error .UnsupportedKind ∧
    request ⟨[], "Unknown"⟩ [] [("pageno", PVal.nat 1)] =
      some (setKey [("pageno", PVal.nat 1)] "url" (.bytes (requestUrl ⟨[], "Unknown"⟩ [] 1))) :=
  ⟨(c3_unsupported_kind (fun j => j) ⟨[], "Unknown"⟩ (.obj [("communities", .arr [])])
      (by decide) (by decide) (by decide) (by decide)).1,
   (c3_unsupported_kind (fun j => j) ⟨[], "Unknown"⟩ (.obj [("communities", .arr [])])
      (by decide) (by decide) (by decide) (by decide)).2 [] [("pageno", PVal.nat 1)] 1 rfl⟩

/-- Claim C9: `request` mutates its `params` dict only at the `"url"`
key: it returns the same dict with `"url"` set to the search URL, every
other key still mapping to its previous value. -/
theorem c9_request_frame (cfg : EngineConfig) (q : List Nat) (params : Params) (n : Nat)
    (h : alookup params "pageno" = some (.nat n)) :
    request cfg q params = some (setKey params "url" (.bytes (requestUrl cfg q n))) ∧
    (∀ k, k ≠ "url" →
      alookup (setKey params "url" (.bytes (requestUrl cfg q n))) k = alookup params k) ∧
    alookup (setKey params "url" (.bytes (requestUrl cfg q n))) "url" =
      some (.bytes (requestUrl cfg q n)) := by
  refine ⟨by simp [request, h], ?_, alookup_setKey_self _ _ _⟩
  intro k hk
  exact alookup_setKey_ne _ _ _ _ hk

/-- Witness for C9: a params dict with a `pageno` and an unrelated
`safesearch` key; the latter is unchanged and `url` is set. -/
theorem c9_request_frame_witness :
    request ⟨[104], "Communities"⟩ [109] [("pageno", PVal.nat 3), ("safesearch", PVal.nat 0)] =
      some (setKey [("pageno", PVal.nat 3), ("safesearch", PVal.nat 0)] "url"
        (.bytes (requestUrl ⟨[104], "Communities"⟩ [109] 3))) ∧
    alookup (setKey [("pageno", PVal.nat 3), ("safesearch", PVal.nat 0)] "url"
        (.bytes (requestUrl ⟨[104], "Communities"⟩ [109] 3))) "safesearch" =
      alookup [("pageno", PVal.nat 3), ("safesearch", PVal.nat 0)] "safesearch" ∧
    alookup (setKey [("pageno", PVal.nat 3), ("safesearch", PVal.nat 0)] "url"
        (.bytes (requestUrl ⟨[104], "Communities"⟩ [109] 3))) "url" =
      some (.bytes (requestUrl ⟨[104], "Communities"⟩ [109] 3)) :=
  ⟨(c9_request_frame ⟨[104], "Communities"⟩ [109]
      [("pageno", PVal.nat 3), ("safesearch", PVal.nat 0)] 3 rfl).1,
   (c9_request_frame ⟨[104], "Communities"⟩ [109]
      [("pageno", PVal.nat 3), ("safesearch", PVal.nat 0)] 3 rfl).2.1 "safesearch" (by decide),
   (c9_request_frame ⟨[104], "Communities"⟩ [109]
      [("pageno", PVal.nat 3), ("safesearch", PVal.nat 0)] 3 rfl).2.2⟩

end Lemmy
